import Mathlib

/-!
Verification development for the Doc-Reviewer workflow engine
(`review_workflow.py` plus its design document).

The pure parts of the source — the `merge_reviews` reducer, the state
shape, the three node functions and the graph built by `create_workflow` —
are embedded directly. The execution engine that runs a compiled graph is
an external library (not part of the repository sources), so the Executor
is modelled from the design document, section 4.2, and is clearly marked
as such below. The external text-generation service is modelled as a
function `String → Option String` (`none` is a generation failure).
-/

namespace DocReviewer

/-- Configuration of one reviewer persona: display name and behavioral
instruction, matching the `{"name": ..., "prompt": ...}` records consumed
by `review_workflow.py`. -/
structure PersonaConfig where
  name : String
  prompt : String
deriving Repr, DecidableEq

/-- A persona snapshot: the Python dict mapping persona id to its config,
modelled as an insertion-ordered association list (a genuine dict has
pairwise-distinct keys). -/
abbrev PersonaSnapshot := List (String × PersonaConfig)

/-- A review dictionary (`Dict[str, str]`), modelled as an
insertion-ordered association list, matching Python dict order. -/
abbrev ReviewDict := List (String × String)

/-- Python dict lookup: the binding of the first (for a genuine dict,
the only) occurrence of the key. -/
def dictGet (d : ReviewDict) (k : String) : Option String :=
  match d with
  | [] => none
  | (k1, v) :: rest => if k1 = k then some v else dictGet rest k

/-- Python dict assignment `d[k] = v`: replaces the value in place when
the key is present (keeping its position), appends the binding otherwise. -/
def dictSet (d : ReviewDict) (k : String) (v : String) : ReviewDict :=
  match d with
  | [] => [(k, v)]
  | (k1, v1) :: rest => if k1 = k then (k, v) :: rest else (k1, v1) :: dictSet rest k v

/-- Key list of a review dictionary. -/
def dictKeys (d : ReviewDict) : List String := d.map Prod.fst

/-- Embeds `merge_reviews(left, right) = {**left, **right}` from
`review_workflow.py`: start from `left`, then write every binding of
`right` over it in order. -/
def merge_reviews (left right : ReviewDict) : ReviewDict :=
  right.foldl (fun acc p => dictSet acc p.1 p.2) left

/-- Embeds the `ReviewState` TypedDict of `review_workflow.py`. -/
structure ReviewState where
  document : String
  selected_reviewers : List String
  supervisor_feedback : String
  reviews : ReviewDict
  final_feedback : String
deriving Repr, DecidableEq

/-- The prompt built by `supervisor_node` in `review_workflow.py`. -/
def supervisor_prompt (document : String) : String :=
  "You are the supervisor. Please review the following document and provide your feedback.\n\n"
  ++ "IMPORTANT: Structure your feedback using the following format. Use bold headings, do NOT use bullet points or lists.\n\n"
  ++ "**Overall Impression:**\n[Your general impression of the document.]\n\n"
  ++ "**Specific Feedback:**\n[Provide specific points of feedback here.]\n\n"
  ++ "--- DOCUMENT FOR REVIEW ---\n"
  ++ document

/-- The prompt built by the reviewer closure returned by
`create_reviewer_node` in `review_workflow.py`; it uses the persona
instruction and the document only. -/
def reviewer_prompt (personaPrompt document : String) : String :=
  personaPrompt ++ "\n\n"
  ++ "Please review the following document and provide your feedback.\n\n"
  ++ "IMPORTANT: Structure your feedback using the following format. Use bold headings, do NOT use bullet points or lists.\n\n"
  ++ "**Key Strengths:**\n[Summarize the positive aspects and strengths of the document here.]\n\n"
  ++ "**Areas for Improvement:**\n[Summarize the constructive criticism and areas that need improvement here.]\n\n"
  ++ "--- DOCUMENT FOR REVIEW ---\n"
  ++ document

/-- The prompt built by `aggregator_node` in `review_workflow.py`,
including the `Review from {name}:` formatting of collected reviews. -/
def aggregator_prompt (supervisor_feedback : String) (reviews : ReviewDict) : String :=
  let review_texts := reviews.map (fun p => "Review from " ++ p.1 ++ ":\n" ++ p.2)
  let combined_reviews := String.intercalate "\n\n" review_texts
  "You are the aggregator. Compile a single, final feedback report by synthesizing the key points from the supervisor\x27s feedback and the individual reviews provided below.\n\n"
  ++ "IMPORTANT: Structure your report using the following format. Use bold headings, do NOT use bullet points or lists.\n\n"
  ++ "**Key Strengths:**\n[Summarize the positive aspects and strengths of the document here.]\n\n"
  ++ "**Areas for Improvement:**\n[Summarize the constructive criticism and areas that need improvement here.]\n\n"
  ++ "**Final Recommendation:**\n[Provide a final recommendation, e.g., \x27Approved\x27, \x27Approved with minor revisions\x27, \x27Requires major revisions\x27.]\n\n"
  ++ "--- FEEDBACK TO PROCESS ---\n"
  ++ "Supervisor\x27s Feedback:\n" ++ supervisor_feedback ++ "\n\n"
  ++ "Individual Reviews:\n" ++ combined_reviews

/-- The partial state fragment a node returns: the dict returned by the
corresponding Python node function, with one field per channel it may
set. -/
structure NodeResult where
  supervisor_feedback : Option String
  reviews : Option ReviewDict
  final_feedback : Option String
deriving Repr, DecidableEq

/-- The external Text Generator: a prompt either yields generated text or
fails (`none` models a generation failure of the service). -/
abbrev Gen := String → Option String

/-- Embeds `supervisor_node` of `review_workflow.py`: one generator call
on the supervisor prompt over the document; on success it returns the
fragment setting `supervisor_feedback`. -/
def supervisor_node (gen : Gen) (state : ReviewState) : Option NodeResult :=
  (gen (supervisor_prompt state.document)).map (fun r => ⟨some r, none, none⟩)

/-- Embeds the reviewer closure produced by
`create_reviewer_node(persona_key, persona_config)`: one generator call
on the reviewer prompt over the document; on success it returns the
fragment `{"reviews": {persona_config["name"]: response}}`. -/
def reviewer_node (cfg : PersonaConfig) (gen : Gen) (state : ReviewState) : Option NodeResult :=
  (gen (reviewer_prompt cfg.prompt state.document)).map
    (fun r => ⟨none, some [(cfg.name, r)], none⟩)

/-- Embeds `aggregator_node` of `review_workflow.py`: one generator call
on the aggregator prompt over the supervisor feedback and the collected
reviews; on success it returns the fragment setting `final_feedback`. -/
def aggregator_node (gen : Gen) (state : ReviewState) : Option NodeResult :=
  (gen (aggregator_prompt state.supervisor_feedback state.reviews)).map
    (fun r => ⟨none, none, some r⟩)

/-- Sentinel terminal vertex of the graph library (`END`). -/
def terminalNode : String := "__end__"

/-- The compiled workflow graph value built by `create_workflow`: the node
list, the entry point, the conditional fan-out from the supervisor
(whose router reads `selected_reviewers` and whose path map sends each
persona key to the node of the same name), the unconditional edges, and
the persona configs the reviewer nodes close over. -/
structure WorkflowGraph where
  nodes : List String
  entry_point : String
  cond_source : String
  cond_targets : List String
  edges : List (String × String)
  personas : PersonaSnapshot
deriving Repr, DecidableEq

/-- Embeds `create_workflow` of `review_workflow.py`: static `supervisor`
and `aggregator` nodes, one node per persona key, entry point
`supervisor`, conditional edges from the supervisor to every persona
node, an edge from every persona node to the aggregator, and the edge
from the aggregator to the terminal vertex. No validation is performed. -/
def create_workflow (personas : PersonaSnapshot) : WorkflowGraph :=
  ⟨"supervisor" :: "aggregator" :: personas.map Prod.fst,
   "supervisor",
   "supervisor",
   personas.map Prod.fst,
   (personas.map (fun p => (p.1, "aggregator"))) ++ [("aggregator", terminalNode)],
   personas⟩

/-- The router installed by `add_conditional_edges`:
`lambda state: state["selected_reviewers"]`. -/
def router (state : ReviewState) : List String := state.selected_reviewers

/-- Persona node ids of a compiled graph. -/
def personaIds (g : WorkflowGraph) : List String := g.personas.map Prod.fst

/-- Every directed edge of the compiled graph, the conditional fan-out
included. -/
def allEdges (g : WorkflowGraph) : List (String × String) :=
  g.cond_targets.map (fun t => (g.cond_source, t)) ++ g.edges

/-- Edge relation of the compiled graph. -/
def edgeRel (g : WorkflowGraph) (a b : String) : Prop := (a, b) ∈ allEdges g

/-- Errors of one execution, from the design document, section 7. -/
inductive ExecError where
  | invalidSelection
  | generationError
deriving Repr, DecidableEq

/-- A node-completion event: the id of the finished node and the partial
state fragment it produced. -/
structure NodeEvent where
  node_id : String
  fragment : NodeResult
deriving Repr, DecidableEq

/-- Modelled from the spec: the validation step of the Executor (the
graph engine is an external library, absent from the repository sources).
Section 4.2, step 1: the selection must be a non-empty subset of the
persona nodes of the graph. -/
def valid_selection (g : WorkflowGraph) (init : ReviewState) : Bool :=
  !init.selected_reviewers.isEmpty
    && init.selected_reviewers.all (fun pid => (personaIds g).contains pid)

/-- Looks up the persona config closed over by the reviewer node of a
given id; validation guarantees presence during execution. -/
def findConfig (personas : PersonaSnapshot) (pid : String) : PersonaConfig :=
  match personas with
  | [] => ⟨"", ""⟩
  | (k, cfg) :: rest => if k = pid then cfg else findConfig rest pid

/-- Modelled from the spec: the fan-out and join phase of the Executor
(sections 4.2 steps 3-4 and 5 on failure; the engine itself is an
external library, absent from the repository sources). The reviewers of
the selection are processed in their completion order, which concurrency
leaves arbitrary; each completed reviewer immediately emits its event and
has its fragment merged into the shared reviews through `merge_reviews`;
a failed generator call emits nothing and marks the whole fan-out failed,
while the computations already in flight still complete and emit. Returns
the emitted events, the merged reviews, and the failure flag. -/
def run_fanout (gen : Gen) (personas : PersonaSnapshot) (st : ReviewState) :
    List String → ReviewDict → List NodeEvent × ReviewDict × Bool
  | [], revs => ([], revs, false)
  | pid :: rest, revs =>
    let cfg := findConfig personas pid
    match reviewer_node cfg gen st with
    | some frag =>
      let out := run_fanout gen personas st rest (merge_reviews revs (frag.reviews.getD []))
      (⟨pid, frag⟩ :: out.1, out.2.1, out.2.2)
    | none =>
      let out := run_fanout gen personas st rest revs
      (out.1, out.2.1, true)

/-- Modelled from the spec: the Executor, section 4.2 (the graph engine
is an external library, absent from the repository sources). Step 1
validates the selection, failing with `InvalidSelection` before any node
runs; step 2 runs the supervisor and emits its event; steps 3-4 fan out
the selected reviewers, `order` being their completion order, arbitrary
under concurrency, merging and emitting as each completes; step 5 runs
the aggregator on the joined state and emits the final event. A generator
failure at any node terminates the execution with `GenerationError`;
events already emitted are kept, downstream nodes never run. Returns the
emitted event sequence together with the outcome. -/
def execute (gen : Gen) (g : WorkflowGraph) (init : ReviewState) (order : List String) :
    List NodeEvent × Except ExecError ReviewState :=
  if valid_selection g init then
    match supervisor_node gen init with
    | none => ([], Except.error ExecError.generationError)
    | some sfrag =>
      let sf := sfrag.supervisor_feedback.getD ""
      let st1 : ReviewState :=
        ⟨init.document, init.selected_reviewers, sf, init.reviews, init.final_feedback⟩
      let fan := run_fanout gen g.personas st1 order init.reviews
      if fan.2.2 then
        (⟨"supervisor", sfrag⟩ :: fan.1, Except.error ExecError.generationError)
      else
        let st2 : ReviewState :=
          ⟨st1.document, st1.selected_reviewers, st1.supervisor_feedback, fan.2.1,
           st1.final_feedback⟩
        match aggregator_node gen st2 with
        | none => (⟨"supervisor", sfrag⟩ :: fan.1, Except.error ExecError.generationError)
        | some afrag =>
          (⟨"supervisor", sfrag⟩ :: fan.1 ++ [⟨"aggregator", afrag⟩],
           Except.ok ⟨st2.document, st2.selected_reviewers, st2.supervisor_feedback,
                      st2.reviews, afrag.final_feedback.getD ""⟩)
  else
    ([], Except.error ExecError.invalidSelection)

/-! Dictionary lemmas. -/

theorem mem_dictKeys_dictSet (d : ReviewDict) (k v : String) (k2 : String) :
    k2 ∈ dictKeys (dictSet d k v) ↔ k2 ∈ dictKeys d ∨ k2 = k := by
  induction d with
  | nil => simp [dictSet, dictKeys]
  | cons hd tl ih =>
    obtain ⟨k1, v1⟩ := hd
    by_cases h : k1 = k
    · subst h
      simp [dictSet, dictKeys]
      tauto
    · simp only [dictSet, if_neg h, dictKeys, List.map_cons, List.mem_cons]
      rw [dictKeys] at ih
      tauto

theorem dictGet_dictSet (d : ReviewDict) (k v k2 : String) :
    dictGet (dictSet d k v) k2 = if k2 = k then some v else dictGet d k2 := by
  induction d with
  | nil =>
    by_cases h : k2 = k
    · subst h; simp [dictSet, dictGet]
    · have h2 : ¬ k = k2 := fun hh => h hh.symm
      simp [dictSet, dictGet, h, h2]
  | cons hd tl ih =>
    obtain ⟨k1, v1⟩ := hd
    by_cases h : k1 = k
    · subst h
      by_cases h2 : k2 = k1
      · subst h2; simp [dictSet, dictGet]
      · have h3 : ¬ k1 = k2 := fun hh => h2 hh.symm
        simp [dictSet, dictGet, h2, h3]
    · by_cases h2 : k1 = k2
      · subst h2
        simp [dictSet, dictGet, h, ih]
      · simp [dictSet, dictGet, h, h2, ih]

theorem dictSet_of_not_mem (d : ReviewDict) (k v : String) (h : k ∉ dictKeys d) :
    dictSet d k v = d ++ [(k, v)] := by
  induction d with
  | nil => simp [dictSet]
  | cons hd tl ih =>
    obtain ⟨k1, v1⟩ := hd
    have h1 : ¬ k1 = k ∧ k ∉ dictKeys tl := by
      simp only [dictKeys, List.map_cons, List.mem_cons] at h
      push_neg at h
      exact ⟨fun hh => h.1 hh.symm, by simp only [dictKeys]; exact h.2⟩
    simp [dictSet, h1.1, ih h1.2]

theorem mem_dictKeys_merge (l r : ReviewDict) (k : String) :
    k ∈ dictKeys (merge_reviews l r) ↔ k ∈ dictKeys l ∨ k ∈ dictKeys r := by
  induction r generalizing l with
  | nil => simp [merge_reviews, dictKeys]
  | cons hd tl ih =>
    obtain ⟨k1, v1⟩ := hd
    show k ∈ dictKeys (merge_reviews (dictSet l k1 v1) tl) ↔ _
    rw [ih, mem_dictKeys_dictSet]
    simp [dictKeys]
    tauto

theorem dictGet_merge_of_not_mem (l r : ReviewDict) (k : String)
    (h : k ∉ dictKeys r) :
    dictGet (merge_reviews l r) k = dictGet l k := by
  induction r generalizing l with
  | nil => rfl
  | cons hd tl ih =>
    obtain ⟨k1, v1⟩ := hd
    simp only [dictKeys, List.map_cons, List.mem_cons] at h
    push_neg at h
    show dictGet (merge_reviews (dictSet l k1 v1) tl) k = _
    rw [ih _ h.2, dictGet_dictSet, if_neg h.1]

theorem dictGet_merge_of_mem (l r : ReviewDict) (k : String)
    (hr : (dictKeys r).Nodup) (h : k ∈ dictKeys r) :
    dictGet (merge_reviews l r) k = dictGet r k := by
  induction r generalizing l with
  | nil => simp [dictKeys] at h
  | cons hd tl ih =>
    obtain ⟨k1, v1⟩ := hd
    simp only [dictKeys, List.map_cons, List.nodup_cons] at hr
    show dictGet (merge_reviews (dictSet l k1 v1) tl) k = _
    by_cases hk : k ∈ dictKeys tl
    · have hne : k ≠ k1 := fun hh => hr.1 (hh ▸ hk)
      rw [ih _ hr.2 hk, dictGet, if_neg (fun hh => hne hh.symm)]
    · simp only [dictKeys, List.map_cons, List.mem_cons] at h
      have hk1 : k = k1 := by
        rcases h with h | h
        · exact h
        · exact absurd h hk
      subst hk1
      rw [dictGet_merge_of_not_mem _ _ _ hk, dictGet_dictSet, if_pos rfl,
        dictGet, if_pos rfl]

/-- C7: the reviews merge is a shallow union, right-biased on collision —
every key of `right` maps to the value of `right`, every key of `left`
absent from `right` keeps the value of `left`, and the key set of the
merge is exactly the union of the key sets, so nothing is lost and the
reviews only grow across merges. -/
theorem c7_merge_reviews_right_biased (l r : ReviewDict)
    (hr : (dictKeys r).Nodup) :
    (∀ k, k ∈ dictKeys r → dictGet (merge_reviews l r) k = dictGet r k)
    ∧ (∀ k, k ∉ dictKeys r → dictGet (merge_reviews l r) k = dictGet l k)
    ∧ (∀ k, k ∈ dictKeys (merge_reviews l r) ↔ k ∈ dictKeys l ∨ k ∈ dictKeys r) :=
  ⟨fun k hk => dictGet_merge_of_mem l r k hr hk,
   fun k hk => dictGet_merge_of_not_mem l r k hk,
   fun k => mem_dictKeys_merge l r k⟩

/-- Witness for C7 at concrete dictionaries with a collision on key a. -/
theorem c7_merge_reviews_right_biased_witness :
    (dictKeys [("a", "2"), ("b", "3")]).Nodup
    ∧ ((∀ k, k ∈ dictKeys [("a", "2"), ("b", "3")] →
          dictGet (merge_reviews [("a", "1"), ("c", "4")] [("a", "2"), ("b", "3")]) k
            = dictGet [("a", "2"), ("b", "3")] k)
       ∧ (∀ k, k ∉ dictKeys [("a", "2"), ("b", "3")] →
          dictGet (merge_reviews [("a", "1"), ("c", "4")] [("a", "2"), ("b", "3")]) k
            = dictGet [("a", "1"), ("c", "4")] k)
       ∧ (∀ k, k ∈ dictKeys (merge_reviews [("a", "1"), ("c", "4")] [("a", "2"), ("b", "3")])
            ↔ k ∈ dictKeys [("a", "1"), ("c", "4")] ∨ k ∈ dictKeys [("a", "2"), ("b", "3")])) :=
  ⟨by decide, c7_merge_reviews_right_biased _ _ (by decide)⟩

/-- C10: a reviewer node reads only the document from the state — two
states agreeing on `document` make the reviewer closure of any persona
issue the same generator prompt and return the same result, whatever
their `supervisor_feedback`, `reviews` or `selected_reviewers`. -/
theorem c10_reviewer_depends_only_on_document (cfg : PersonaConfig) (gen : Gen)
    (s1 s2 : ReviewState) (hdoc : s1.document = s2.document) :
    reviewer_prompt cfg.prompt s1.document = reviewer_prompt cfg.prompt s2.document
    ∧ reviewer_node cfg gen s1 = reviewer_node cfg gen s2 := by
  refine ⟨by rw [hdoc], ?_⟩
  simp [reviewer_node, hdoc]

/-- Witness for C10 at two concrete states equal in the document alone. -/
theorem c10_reviewer_depends_only_on_document_witness :
    (ReviewState.document ⟨"D", ["a"], "old", [("x", "y")], "f"⟩
       = ReviewState.document ⟨"D", [], "new", [], ""⟩)
    ∧ (reviewer_prompt (PersonaConfig.prompt ⟨"N", "P"⟩)
         (ReviewState.document ⟨"D", ["a"], "old", [("x", "y")], "f"⟩)
         = reviewer_prompt (PersonaConfig.prompt ⟨"N", "P"⟩)
           (ReviewState.document ⟨"D", [], "new", [], ""⟩)
       ∧ reviewer_node ⟨"N", "P"⟩ (fun p => some p) ⟨"D", ["a"], "old", [("x", "y")], "f"⟩
         = reviewer_node ⟨"N", "P"⟩ (fun p => some p) ⟨"D", [], "new", [], ""⟩) :=
  ⟨rfl, c10_reviewer_depends_only_on_document ⟨"N", "P"⟩ (fun p => some p) _ _ rfl⟩

/-- C4 counterexample: compiling the empty persona snapshot does not fail
with any error — `create_workflow` performs no validation and returns a
plain workflow graph value. -/
theorem c4_counterexample_empty_snapshot_compiles :
    create_workflow ([] : PersonaSnapshot)
      = ⟨["supervisor", "aggregator"], "supervisor", "supervisor", [],
         [("aggregator", terminalNode)], []⟩ := rfl

/-- C4 amended: compilation is total — for every persona snapshot,
including the empty one, `create_workflow` returns a WorkflowGraph value
with the two static nodes plus one node per persona id; the source
contains no emptiness or duplicate-id validation, and a dict snapshot
cannot carry duplicate ids in the first place. -/
theorem c4_create_workflow_total (ps : PersonaSnapshot) :
    (create_workflow ps).nodes = "supervisor" :: "aggregator" :: ps.map Prod.fst
    ∧ (create_workflow ps).nodes.length = ps.length + 2
    ∧ (create_workflow ps).personas = ps := by
  refine ⟨rfl, ?_, rfl⟩
  simp [create_workflow]

/-- C9: compilation and execution are deterministic — equal snapshots
compile to structurally equal graphs, and two runs of `execute` on the
same graph, initial state and completion order against stub generators
with the same input-output behavior produce identical event sequences
and final state. -/
theorem c9_deterministic (ps1 ps2 : PersonaSnapshot) (gen1 gen2 : Gen)
    (g : WorkflowGraph) (init : ReviewState) (order : List String)
    (hps : ps1 = ps2) (hgen : ∀ p, gen1 p = gen2 p) :
    create_workflow ps1 = create_workflow ps2
    ∧ execute gen1 g init order = execute gen2 g init order := by
  have hg : gen1 = gen2 := funext hgen
  subst hps
  subst hg
  exact ⟨rfl, rfl⟩

/-- Witness for C9 at a concrete snapshot and two syntactically distinct
but pointwise equal stub generators. -/
theorem c9_deterministic_witness :
    ([(("a" : String), (⟨"A", "PA"⟩ : PersonaConfig))]
       = [(("a" : String), (⟨"A", "PA"⟩ : PersonaConfig))])
    ∧ (∀ p, (fun q => if q = q then some "x" else none : Gen) p
         = (fun _ => some "x" : Gen) p)
    ∧ (create_workflow [("a", ⟨"A", "PA"⟩)] = create_workflow [("a", ⟨"A", "PA"⟩)]
       ∧ execute (fun q => if q = q then some "x" else none)
           (create_workflow [("a", ⟨"A", "PA"⟩)]) ⟨"D", ["a"], "", [], ""⟩ ["a"]
         = execute (fun _ => some "x")
           (create_workflow [("a", ⟨"A", "PA"⟩)]) ⟨"D", ["a"], "", [], ""⟩ ["a"]) :=
  ⟨rfl, fun p => by simp,
   c9_deterministic _ _ _ _ _ _ _ rfl (fun p => by simp)⟩

/-! Executor lemmas. -/

/-- The text generated for the reviewer node of a given persona id over a
given document. -/
def reviewer_text (gen : Gen) (ps : PersonaSnapshot) (document pid : String) : String :=
  (gen (reviewer_prompt (findConfig ps pid).prompt document)).getD ""

/-- The state after the supervisor completed, with its feedback merged. -/
def post_supervisor_state (gen : Gen) (init : ReviewState) : ReviewState :=
  ⟨init.document, init.selected_reviewers, (gen (supervisor_prompt init.document)).getD "",
   init.reviews, init.final_feedback⟩

/-- The outcome of the fan-out phase of an execution. -/
def fan_result (gen : Gen) (g : WorkflowGraph) (init : ReviewState) (order : List String) :
    List NodeEvent × ReviewDict × Bool :=
  run_fanout gen g.personas (post_supervisor_state gen init) order init.reviews

/-- The text generated by the aggregator node of an execution. -/
def agg_text (gen : Gen) (g : WorkflowGraph) (init : ReviewState) (order : List String) :
    String :=
  (gen (aggregator_prompt (post_supervisor_state gen init).supervisor_feedback
      (fan_result gen g init order).2.1)).getD ""

theorem valid_selection_true (g : WorkflowGraph) (init : ReviewState)
    (hne : init.selected_reviewers ≠ [])
    (hsub : ∀ pid ∈ init.selected_reviewers, pid ∈ personaIds g) :
    valid_selection g init = true := by
  rw [valid_selection]
  have h1 : init.selected_reviewers.isEmpty = false := by
    cases hsel : init.selected_reviewers with
    | nil => exact absurd hsel hne
    | cons a t => rfl
  rw [h1]
  simp only [Bool.not_false, Bool.true_and, List.all_eq_true]
  intro pid hmem
  simpa using hsub pid hmem

theorem valid_selection_false (g : WorkflowGraph) (init : ReviewState)
    (h : init.selected_reviewers = []
         ∨ ∃ pid ∈ init.selected_reviewers, pid ∉ personaIds g) :
    valid_selection g init = false := by
  rw [valid_selection]
  rcases h with h | ⟨pid, hmem, hout⟩
  · rw [h]
    rfl
  · have h2 : init.selected_reviewers.all (fun pid => (personaIds g).contains pid) = false := by
      rcases hall : init.selected_reviewers.all (fun pid => (personaIds g).contains pid) with _ | _
      · rfl
      · rw [List.all_eq_true] at hall
        have := hall pid hmem
        simp at this
        exact absurd this hout
    rw [h2, Bool.and_false]

theorem run_fanout_map_node_id (gen : Gen) (ps : PersonaSnapshot) (st : ReviewState) :
    ∀ (order : List String) (revs : ReviewDict),
      (run_fanout gen ps st order revs).1.map NodeEvent.node_id
        = order.filter (fun pid => (reviewer_node (findConfig ps pid) gen st).isSome) := by
  intro order
  induction order with
  | nil => intro revs; rfl
  | cons pid rest ih =>
    intro revs
    cases h : reviewer_node (findConfig ps pid) gen st with
    | none => simp [run_fanout, h, ih]
    | some frag => simp [run_fanout, h, ih]

theorem run_fanout_failed (gen : Gen) (ps : PersonaSnapshot) (st : ReviewState) :
    ∀ (order : List String) (revs : ReviewDict),
      (run_fanout gen ps st order revs).2.2
        = order.any (fun pid => (reviewer_node (findConfig ps pid) gen st).isNone) := by
  intro order
  induction order with
  | nil => intro revs; rfl
  | cons pid rest ih =>
    intro revs
    cases h : reviewer_node (findConfig ps pid) gen st with
    | none => simp [run_fanout, h]
    | some frag => simp [run_fanout, h, ih]

theorem run_fanout_map_node_id_total (gen : Gen) (ps : PersonaSnapshot) (st : ReviewState)
    (order : List String) (revs : ReviewDict) (hgen : ∀ p, (gen p).isSome) :
    (run_fanout gen ps st order revs).1.map NodeEvent.node_id = order := by
  rw [run_fanout_map_node_id]
  rw [List.filter_eq_self]
  intro pid _
  obtain ⟨r, hr⟩ := Option.isSome_iff_exists.mp (hgen (reviewer_prompt (findConfig ps pid).prompt st.document))
  simp [reviewer_node, hr]

theorem run_fanout_not_failed (gen : Gen) (ps : PersonaSnapshot) (st : ReviewState)
    (order : List String) (revs : ReviewDict) (hgen : ∀ p, (gen p).isSome) :
    (run_fanout gen ps st order revs).2.2 = false := by
  rw [run_fanout_failed]
  simp only [List.any_eq_false]
  intro pid _
  obtain ⟨r, hr⟩ := Option.isSome_iff_exists.mp (hgen (reviewer_prompt (findConfig ps pid).prompt st.document))
  simp [reviewer_node, hr]

theorem run_fanout_fragments (gen : Gen) (ps : PersonaSnapshot) (st : ReviewState) :
    ∀ (order : List String) (revs : ReviewDict),
      ∀ ev ∈ (run_fanout gen ps st order revs).1,
        ev.fragment.supervisor_feedback = none ∧ ev.fragment.final_feedback = none := by
  intro order
  induction order with
  | nil => intro revs ev hev; cases hev
  | cons pid rest ih =>
    intro revs ev hev
    cases h : gen (reviewer_prompt (findConfig ps pid).prompt st.document) with
    | none =>
      have hnode : reviewer_node (findConfig ps pid) gen st = none := by
        simp [reviewer_node, h]
      rw [run_fanout] at hev
      rw [hnode] at hev
      exact ih _ ev hev
    | some r =>
      have hnode : reviewer_node (findConfig ps pid) gen st
          = some ⟨none, some [((findConfig ps pid).name, r)], none⟩ := by
        simp [reviewer_node, h]
      rw [run_fanout] at hev
      rw [hnode] at hev
      simp only [List.mem_cons] at hev
      rcases hev with hev | hev
      · subst hev
        exact ⟨rfl, rfl⟩
      · exact ih _ ev hev

theorem run_fanout_reviews (gen : Gen) (ps : PersonaSnapshot) (st : ReviewState)
    (hgen : ∀ p, (gen p).isSome) :
    ∀ (order : List String) (revs : ReviewDict),
      ((order.map (fun pid => (findConfig ps pid).name)) ++ dictKeys revs).Nodup →
      (run_fanout gen ps st order revs).2.1
        = revs ++ order.map (fun pid =>
            ((findConfig ps pid).name, reviewer_text gen ps st.document pid)) := by
  intro order
  induction order with
  | nil => intro revs _; simp [run_fanout]
  | cons pid rest ih =>
    intro revs h
    obtain ⟨r, hr⟩ := Option.isSome_iff_exists.mp
      (hgen (reviewer_prompt (findConfig ps pid).prompt st.document))
    have hnode : reviewer_node (findConfig ps pid) gen st
        = some ⟨none, some [((findConfig ps pid).name, r)], none⟩ := by
      simp [reviewer_node, hr]
    simp only [List.map_cons, List.cons_append, List.nodup_cons] at h
    have hfresh : (findConfig ps pid).name ∉ dictKeys revs :=
      fun hmem => h.1 (List.mem_append_right _ hmem)
    have hmerge : merge_reviews revs [((findConfig ps pid).name, r)]
        = revs ++ [((findConfig ps pid).name, r)] := by
      show dictSet revs (findConfig ps pid).name r = _
      exact dictSet_of_not_mem _ _ _ hfresh
    have hkeys2 : dictKeys (revs ++ [((findConfig ps pid).name, r)])
        = dictKeys revs ++ [(findConfig ps pid).name] := by
      simp [dictKeys]
    have hnd2 : ((rest.map (fun pid => (findConfig ps pid).name))
        ++ dictKeys (revs ++ [((findConfig ps pid).name, r)])).Nodup := by
      rw [hkeys2, ← List.append_assoc]
      have hperm : ((rest.map (fun pid => (findConfig ps pid).name) ++ dictKeys revs)
          ++ [(findConfig ps pid).name]).Perm
          ((findConfig ps pid).name :: (rest.map (fun pid => (findConfig ps pid).name)
            ++ dictKeys revs)) := List.perm_append_singleton _ _
      exact hperm.symm.nodup (List.nodup_cons.mpr h)
    rw [run_fanout]
    rw [hnode]
    simp only
    rw [Option.getD_some]
    show (run_fanout gen ps st rest (merge_reviews revs [((findConfig ps pid).name, r)])).2.1 = _
    rw [hmerge, ih _ hnd2]
    have htext : reviewer_text gen ps st.document pid = r := by
      rw [reviewer_text, hr]
      rfl
    simp [htext]

theorem execute_of_invalid (gen : Gen) (g : WorkflowGraph) (init : ReviewState)
    (order : List String) (hval : valid_selection g init = false) :
    execute gen g init order = ([], Except.error ExecError.invalidSelection) := by
  have h2 : ¬ (valid_selection g init = true) := by
    rw [hval]
    exact Bool.false_ne_true
  rw [execute, if_neg h2]

theorem execute_of_valid_total (gen : Gen) (g : WorkflowGraph) (init : ReviewState)
    (order : List String) (hval : valid_selection g init = true)
    (hgen : ∀ p, (gen p).isSome) :
    execute gen g init order
      = (⟨"supervisor", ⟨some ((gen (supervisor_prompt init.document)).getD ""), none, none⟩⟩
           :: (fan_result gen g init order).1
           ++ [⟨"aggregator", ⟨none, none, some (agg_text gen g init order)⟩⟩],
         Except.ok ⟨init.document, init.selected_reviewers,
                    (gen (supervisor_prompt init.document)).getD "",
                    (fan_result gen g init order).2.1, agg_text gen g init order⟩) := by
  obtain ⟨sf, hsf⟩ := Option.isSome_iff_exists.mp (hgen (supervisor_prompt init.document))
  have hpost : post_supervisor_state gen init
      = ⟨init.document, init.selected_reviewers, sf, init.reviews, init.final_feedback⟩ := by
    rw [post_supervisor_state, hsf]
    rfl
  have hsup : supervisor_node gen init = some ⟨some sf, none, none⟩ := by
    rw [supervisor_node, hsf]
    rfl
  have hnf := run_fanout_not_failed gen g.personas
      (post_supervisor_state gen init) order init.reviews hgen
  obtain ⟨af, haf⟩ := Option.isSome_iff_exists.mp
    (hgen (aggregator_prompt (post_supervisor_state gen init).supervisor_feedback
      (fan_result gen g init order).2.1))
  have hsf2 : (gen (supervisor_prompt init.document)).getD "" = sf := by
    rw [hsf]
    rfl
  have hat : agg_text gen g init order = af := by
    rw [agg_text, haf]
    rfl
  rw [execute, if_pos hval, hsup]
  simp only [fan_result, hpost] at hnf haf ⊢
  simp only [Option.getD_some, hnf, Bool.false_eq_true, if_false, hsf2, hat]
  have hagg : aggregator_node gen
      ⟨init.document, init.selected_reviewers, sf,
       (run_fanout gen g.personas
         ⟨init.document, init.selected_reviewers, sf, init.reviews, init.final_feedback⟩
         order init.reviews).2.1, init.final_feedback⟩
      = some ⟨none, none, some af⟩ := by
    rw [aggregator_node]
    show (gen (aggregator_prompt sf
      ((run_fanout gen g.personas
        ⟨init.document, init.selected_reviewers, sf, init.reviews, init.final_feedback⟩
        order init.reviews).2.1))).map
        (fun r => (⟨none, none, some r⟩ : NodeResult)) = _
    rw [haf]
    rfl
  rw [hagg]
  simp

/-! Sample data for the concrete witnesses. -/

/-- Sample persona snapshot used by witnesses. -/
def sample_personas : PersonaSnapshot :=
  [("strict", ⟨"Strict Reviewer", "PS"⟩), ("kind", ⟨"Kind Reviewer", "PK"⟩)]

/-- Sample initial state used by witnesses. -/
def sample_init : ReviewState := ⟨"D", ["strict", "kind"], "", [], ""⟩

/-- Sample completion order used by witnesses, distinct from the
selection order. -/
def sample_order : List String := ["kind", "strict"]

/-- A total stub generator used by witnesses. -/
def total_gen : Gen := fun _ => some "out"

/-- C1: on a compiled graph, for every non-empty duplicate-free selection
contained in the persona ids and every completion order, a fully consumed
execution against a non-failing generator emits exactly one event for the
supervisor, one per selected persona and one for the aggregator — the
emitted node ids are a duplicate-free permutation of the selection plus
the two static nodes, so the stream has exactly the selection size plus
two events. -/
theorem c1_event_count (ps : PersonaSnapshot) (gen : Gen) (init : ReviewState)
    (order : List String)
    (hgen : ∀ p, (gen p).isSome)
    (hperm : order.Perm init.selected_reviewers)
    (hne : init.selected_reviewers ≠ [])
    (hsub : ∀ pid ∈ init.selected_reviewers, pid ∈ personaIds (create_workflow ps))
    (hnd : init.selected_reviewers.Nodup)
    (hsup : "supervisor" ∉ ps.map Prod.fst)
    (hagg : "aggregator" ∉ ps.map Prod.fst) :
    ((execute gen (create_workflow ps) init order).1.map NodeEvent.node_id).Perm
        ("supervisor" :: init.selected_reviewers ++ ["aggregator"])
    ∧ ((execute gen (create_workflow ps) init order).1.map NodeEvent.node_id).Nodup
    ∧ (execute gen (create_workflow ps) init order).1.length
        = init.selected_reviewers.length + 2 := by
  have hval := valid_selection_true (create_workflow ps) init hne hsub
  have hfan : (fan_result gen (create_workflow ps) init order).1.map NodeEvent.node_id
      = order := run_fanout_map_node_id_total _ _ _ _ _ hgen
  have hids : (execute gen (create_workflow ps) init order).1.map NodeEvent.node_id
      = "supervisor" :: (order ++ ["aggregator"]) := by
    rw [execute_of_valid_total _ _ _ _ hval hgen]
    simp only [List.map_cons, List.map_append, List.map_cons, List.map_nil]
    rw [hfan]
    rw [List.cons_append]
  have hpermids : ((execute gen (create_workflow ps) init order).1.map NodeEvent.node_id).Perm
      ("supervisor" :: init.selected_reviewers ++ ["aggregator"]) := by
    rw [hids]
    exact (hperm.append_right ["aggregator"]).cons "supervisor"
  have hsel_sup : "supervisor" ∉ init.selected_reviewers :=
    fun h => hsup (hsub _ h)
  have hsel_agg : "aggregator" ∉ init.selected_reviewers :=
    fun h => hagg (hsub _ h)
  have hrhs_nd : ("supervisor" :: init.selected_reviewers ++ ["aggregator"]).Nodup := by
    rw [List.cons_append, List.nodup_cons]
    constructor
    · intro hmem
      rcases List.mem_append.mp hmem with hmem | hmem
      · exact hsel_sup hmem
      · simp at hmem
    · exact List.Nodup.append hnd (List.nodup_singleton _)
        (fun a ha hb => by
          simp only [List.mem_singleton] at hb
          subst hb
          exact hsel_agg ha)
  refine ⟨hpermids, hpermids.symm.nodup hrhs_nd, ?_⟩
  have hlen : ((execute gen (create_workflow ps) init order).1.map NodeEvent.node_id).length
      = init.selected_reviewers.length + 2 := by
    rw [hids]
    simp [hperm.length_eq]
  rw [List.length_map] at hlen
  exact hlen

/-- Witness for C1 at the sample snapshot, selection and a completion
order different from the selection order. -/
theorem c1_event_count_witness :
    (∀ p, (total_gen p).isSome)
    ∧ sample_order.Perm sample_init.selected_reviewers
    ∧ sample_init.selected_reviewers ≠ []
    ∧ (∀ pid ∈ sample_init.selected_reviewers,
        pid ∈ personaIds (create_workflow sample_personas))
    ∧ sample_init.selected_reviewers.Nodup
    ∧ "supervisor" ∉ sample_personas.map Prod.fst
    ∧ "aggregator" ∉ sample_personas.map Prod.fst
    ∧ (((execute total_gen (create_workflow sample_personas) sample_init sample_order).1.map
          NodeEvent.node_id).Perm
        ("supervisor" :: sample_init.selected_reviewers ++ ["aggregator"])
      ∧ ((execute total_gen (create_workflow sample_personas) sample_init sample_order).1.map
          NodeEvent.node_id).Nodup
      ∧ (execute total_gen (create_workflow sample_personas) sample_init sample_order).1.length
          = sample_init.selected_reviewers.length + 2) :=
  ⟨fun p => rfl, by decide, by decide, by decide, by decide, by decide, by decide,
   c1_event_count sample_personas total_gen sample_init sample_order
     (fun p => rfl) (by decide) (by decide) (by decide) (by decide) (by decide) (by decide)⟩

/-- C2: in every successful execution, the supervisor event strictly
precedes every reviewer event and every reviewer event strictly precedes
the aggregator event, whatever the completion order of the reviewers. -/
theorem c2_supervisor_before_reviewers_before_aggregator
    (ps : PersonaSnapshot) (gen : Gen) (init : ReviewState) (order : List String)
    (hgen : ∀ p, (gen p).isSome)
    (hperm : order.Perm init.selected_reviewers)
    (hne : init.selected_reviewers ≠ [])
    (hsub : ∀ pid ∈ init.selected_reviewers, pid ∈ personaIds (create_workflow ps))
    (hsup : "supervisor" ∉ ps.map Prod.fst)
    (hagg : "aggregator" ∉ ps.map Prod.fst) :
    ∀ r ∈ init.selected_reviewers,
      ((execute gen (create_workflow ps) init order).1.map NodeEvent.node_id).indexOf "supervisor"
        < ((execute gen (create_workflow ps) init order).1.map NodeEvent.node_id).indexOf r
      ∧ ((execute gen (create_workflow ps) init order).1.map NodeEvent.node_id).indexOf r
        < ((execute gen (create_workflow ps) init order).1.map NodeEvent.node_id).indexOf
            "aggregator" := by
  intro r hr
  have hval := valid_selection_true (create_workflow ps) init hne hsub
  have hfan : (fan_result gen (create_workflow ps) init order).1.map NodeEvent.node_id
      = order := run_fanout_map_node_id_total _ _ _ _ _ hgen
  have hids : (execute gen (create_workflow ps) init order).1.map NodeEvent.node_id
      = "supervisor" :: (order ++ ["aggregator"]) := by
    rw [execute_of_valid_total _ _ _ _ hval hgen]
    simp only [List.map_cons, List.map_append, List.map_cons, List.map_nil]
    rw [hfan]
    rw [List.cons_append]
  have hro : r ∈ order := hperm.mem_iff.mpr hr
  have hrps : r ∈ ps.map Prod.fst := hsub r hr
  have hrsup : "supervisor" ≠ r := fun h => hsup (by rw [h]; exact hrps)
  have haggo : "aggregator" ∉ order :=
    fun h => hagg (hsub _ (hperm.mem_iff.mp h))
  rw [hids]
  constructor
  · rw [List.indexOf_cons_self, List.indexOf_cons_ne _ hrsup]
    exact Nat.succ_pos _
  · rw [List.indexOf_cons_ne _ hrsup,
      List.indexOf_cons_ne _ (by decide : ("supervisor" : String) ≠ "aggregator")]
    rw [List.indexOf_append_of_mem hro, List.indexOf_append_of_not_mem haggo,
      List.indexOf_cons_self, Nat.add_zero]
    exact Nat.succ_lt_succ (List.indexOf_lt_length.mpr hro)

/-- Witness for C2 at the sample snapshot with the reviewers completing
in the reverse of the selection order. -/
theorem c2_supervisor_before_reviewers_before_aggregator_witness :
    (∀ p, (total_gen p).isSome)
    ∧ sample_order.Perm sample_init.selected_reviewers
    ∧ sample_init.selected_reviewers ≠ []
    ∧ (∀ pid ∈ sample_init.selected_reviewers,
        pid ∈ personaIds (create_workflow sample_personas))
    ∧ "supervisor" ∉ sample_personas.map Prod.fst
    ∧ "aggregator" ∉ sample_personas.map Prod.fst
    ∧ (∀ r ∈ sample_init.selected_reviewers,
        ((execute total_gen (create_workflow sample_personas) sample_init sample_order).1.map
            NodeEvent.node_id).indexOf "supervisor"
          < ((execute total_gen (create_workflow sample_personas) sample_init sample_order).1.map
              NodeEvent.node_id).indexOf r
        ∧ ((execute total_gen (create_workflow sample_personas) sample_init sample_order).1.map
            NodeEvent.node_id).indexOf r
          < ((execute total_gen (create_workflow sample_personas) sample_init sample_order).1.map
              NodeEvent.node_id).indexOf "aggregator") :=
  ⟨fun p => rfl, by decide, by decide, by decide, by decide, by decide,
   c2_supervisor_before_reviewers_before_aggregator sample_personas total_gen sample_init
     sample_order (fun p => rfl) (by decide) (by decide) (by decide) (by decide) (by decide)⟩

/-- C3: an empty selection, or a selection containing an id that is not a
persona node of the compiled graph, makes execute fail with
InvalidSelection and emit zero events — no node runs, whatever the
generator does. -/
theorem c3_invalid_selection (ps : PersonaSnapshot) (gen : Gen) (init : ReviewState)
    (order : List String)
    (h : init.selected_reviewers = []
         ∨ ∃ pid ∈ init.selected_reviewers, pid ∉ personaIds (create_workflow ps)) :
    execute gen (create_workflow ps) init order
      = ([], Except.error ExecError.invalidSelection) :=
  execute_of_invalid _ _ _ _ (valid_selection_false _ _ h)

/-- Witness for C3 at an empty selection. -/
theorem c3_invalid_selection_witness :
    ((⟨"D", [], "", [], ""⟩ : ReviewState).selected_reviewers = []
      ∨ ∃ pid ∈ (⟨"D", [], "", [], ""⟩ : ReviewState).selected_reviewers,
          pid ∉ personaIds (create_workflow sample_personas))
    ∧ execute total_gen (create_workflow sample_personas) ⟨"D", [], "", [], ""⟩ []
        = ([], Except.error ExecError.invalidSelection) :=
  ⟨Or.inl rfl,
   c3_invalid_selection sample_personas total_gen ⟨"D", [], "", [], ""⟩ [] (Or.inl rfl)⟩

theorem dictGet_of_mem (l : ReviewDict) (k v : String)
    (hnd : (dictKeys l).Nodup) (hmem : (k, v) ∈ l) : dictGet l k = some v := by
  induction l with
  | nil => cases hmem
  | cons hd tl ih =>
    obtain ⟨k1, v1⟩ := hd
    have hnd2 : k1 ∉ dictKeys tl ∧ (dictKeys tl).Nodup := by
      simp only [dictKeys, List.map_cons, List.nodup_cons] at hnd
      exact ⟨by simp only [dictKeys]; exact hnd.1, by simp only [dictKeys]; exact hnd.2⟩
    rcases List.mem_cons.mp hmem with heq | hmem2
    · obtain ⟨hk, hv⟩ := Prod.mk.injEq .. ▸ heq
      rw [dictGet, if_pos hk.symm, hv]
    · have hk : k ∈ dictKeys tl := by
        simp only [dictKeys, List.mem_map]
        exact ⟨(k, v), hmem2, rfl⟩
      have hne : ¬ k1 = k := fun h => hnd2.1 (h ▸ hk)
      rw [dictGet, if_neg hne]
      exact ih hnd2.2 hmem2

/-- C5: when the selected personas carry pairwise-distinct display names
and the initial reviews dict is empty, the reviews mapping the aggregator
receives — equal to the reviews of the final state — has as key set
exactly the display names of the selected personas, each mapped to the
text its own reviewer node generated, whatever the completion order. -/
theorem c5_reviews_exact (ps : PersonaSnapshot) (gen : Gen) (init : ReviewState)
    (order : List String)
    (hgen : ∀ p, (gen p).isSome)
    (hperm : order.Perm init.selected_reviewers)
    (hne : init.selected_reviewers ≠ [])
    (hsub : ∀ pid ∈ init.selected_reviewers, pid ∈ personaIds (create_workflow ps))
    (hinit : init.reviews = [])
    (hnames : (init.selected_reviewers.map (fun pid => (findConfig ps pid).name)).Nodup) :
    ∃ st : ReviewState,
      (execute gen (create_workflow ps) init order).2 = Except.ok st
      ∧ (dictKeys st.reviews).Perm
          (init.selected_reviewers.map (fun pid => (findConfig ps pid).name))
      ∧ ∀ pid ∈ init.selected_reviewers,
          dictGet st.reviews ((findConfig ps pid).name)
            = gen (reviewer_prompt ((findConfig ps pid).prompt) init.document) := by
  have hval := valid_selection_true (create_workflow ps) init hne hsub
  have hordnames : (order.map (fun pid => (findConfig ps pid).name)).Nodup :=
    ((hperm.map (fun pid => (findConfig ps pid).name)).nodup_iff).mpr hnames
  have hrev : (fan_result gen (create_workflow ps) init order).2.1
      = order.map (fun pid =>
          ((findConfig ps pid).name,
           reviewer_text gen ps (post_supervisor_state gen init).document pid)) := by
    rw [fan_result, hinit]
    rw [show (create_workflow ps).personas = ps from rfl]
    rw [run_fanout_reviews gen ps
      (post_supervisor_state gen init) hgen order [] (by simpa [dictKeys] using hordnames)]
    simp
  rw [execute_of_valid_total _ _ _ _ hval hgen]
  refine ⟨_, rfl, ?_, ?_⟩
  · show (dictKeys (fan_result gen (create_workflow ps) init order).2.1).Perm _
    rw [hrev]
    have hkeys : dictKeys (order.map (fun pid =>
        ((findConfig ps pid).name,
         reviewer_text gen ps (post_supervisor_state gen init).document pid)))
        = order.map (fun pid => (findConfig ps pid).name) := by
      simp [dictKeys, Function.comp]
    rw [hkeys]
    exact hperm.map _
  · intro pid hpid
    show dictGet (fan_result gen (create_workflow ps) init order).2.1
        ((findConfig ps pid).name) = _
    have hpo : pid ∈ order := hperm.mem_iff.mpr hpid
    have hmem : ((findConfig ps pid).name,
        reviewer_text gen ps (post_supervisor_state gen init).document pid)
        ∈ order.map (fun pid =>
            ((findConfig ps pid).name,
             reviewer_text gen ps (post_supervisor_state gen init).document pid)) :=
      List.mem_map_of_mem _ hpo
    have hkeysnd : (dictKeys (order.map (fun pid =>
        ((findConfig ps pid).name,
         reviewer_text gen ps (post_supervisor_state gen init).document pid)))).Nodup := by
      have hkeys : dictKeys (order.map (fun pid =>
          ((findConfig ps pid).name,
           reviewer_text gen ps (post_supervisor_state gen init).document pid)))
          = order.map (fun pid => (findConfig ps pid).name) := by
        simp [dictKeys, Function.comp]
      rw [hkeys]
      exact hordnames
    rw [hrev, dictGet_of_mem _ _ _ hkeysnd hmem]
    rw [reviewer_text]
    obtain ⟨r, hr⟩ := Option.isSome_iff_exists.mp
      (hgen (reviewer_prompt (findConfig ps pid).prompt
        (post_supervisor_state gen init).document))
    have hr2 : gen (reviewer_prompt (findConfig ps pid).prompt init.document) = some r := hr
    rw [hr, hr2]
    rfl

/-- Witness for C5 at the sample snapshot: distinct display names, empty
initial reviews, reverse completion order. -/
theorem c5_reviews_exact_witness :
    (∀ p, (total_gen p).isSome)
    ∧ sample_order.Perm sample_init.selected_reviewers
    ∧ sample_init.selected_reviewers ≠ []
    ∧ (∀ pid ∈ sample_init.selected_reviewers,
        pid ∈ personaIds (create_workflow sample_personas))
    ∧ sample_init.reviews = []
    ∧ (sample_init.selected_reviewers.map
        (fun pid => (findConfig sample_personas pid).name)).Nodup
    ∧ (∃ st : ReviewState,
        (execute total_gen (create_workflow sample_personas) sample_init sample_order).2
          = Except.ok st
        ∧ (dictKeys st.reviews).Perm
            (sample_init.selected_reviewers.map
              (fun pid => (findConfig sample_personas pid).name))
        ∧ ∀ pid ∈ sample_init.selected_reviewers,
            dictGet st.reviews ((findConfig sample_personas pid).name)
              = total_gen (reviewer_prompt ((findConfig sample_personas pid).prompt)
                  sample_init.document)) :=
  ⟨fun p => rfl, by decide, by decide, by decide, rfl, by decide,
   c5_reviews_exact sample_personas total_gen sample_init sample_order
     (fun p => rfl) (by decide) (by decide) (by decide) rfl (by decide)⟩

theorem execute_of_fanout_failed (gen : Gen) (g : WorkflowGraph) (init : ReviewState)
    (order : List String) (sf : String)
    (hval : valid_selection g init = true)
    (hsf : gen (supervisor_prompt init.document) = some sf)
    (hfailed : (run_fanout gen g.personas
        ⟨init.document, init.selected_reviewers, sf, init.reviews, init.final_feedback⟩
        order init.reviews).2.2 = true) :
    execute gen g init order
      = (⟨"supervisor", ⟨some sf, none, none⟩⟩
           :: (run_fanout gen g.personas
             ⟨init.document, init.selected_reviewers, sf, init.reviews, init.final_feedback⟩
             order init.reviews).1,
         Except.error ExecError.generationError) := by
  have hsup : supervisor_node gen init = some ⟨some sf, none, none⟩ := by
    rw [supervisor_node, hsf]
    rfl
  rw [execute, if_pos hval, hsup]
  simp only [Option.getD_some, hfailed, if_true]

theorem execute_of_supervisor_failed (gen : Gen) (g : WorkflowGraph) (init : ReviewState)
    (order : List String)
    (hval : valid_selection g init = true)
    (hsf : gen (supervisor_prompt init.document) = none) :
    execute gen g init order = ([], Except.error ExecError.generationError) := by
  have hsup : supervisor_node gen init = none := by
    rw [supervisor_node, hsf]
    rfl
  rw [execute, if_pos hval, hsup]

theorem execute_of_agg_failed (gen : Gen) (g : WorkflowGraph) (init : ReviewState)
    (order : List String) (sf : String)
    (hval : valid_selection g init = true)
    (hsf : gen (supervisor_prompt init.document) = some sf)
    (hnf : (run_fanout gen g.personas
        ⟨init.document, init.selected_reviewers, sf, init.reviews, init.final_feedback⟩
        order init.reviews).2.2 = false)
    (haf : gen (aggregator_prompt sf
        (run_fanout gen g.personas
          ⟨init.document, init.selected_reviewers, sf, init.reviews, init.final_feedback⟩
          order init.reviews).2.1) = none) :
    execute gen g init order
      = (⟨"supervisor", ⟨some sf, none, none⟩⟩
           :: (run_fanout gen g.personas
             ⟨init.document, init.selected_reviewers, sf, init.reviews, init.final_feedback⟩
             order init.reviews).1,
         Except.error ExecError.generationError) := by
  have hsup : supervisor_node gen init = some ⟨some sf, none, none⟩ := by
    rw [supervisor_node, hsf]
    rfl
  have haggnode : aggregator_node gen
      ⟨init.document, init.selected_reviewers, sf,
       (run_fanout gen g.personas
         ⟨init.document, init.selected_reviewers, sf, init.reviews, init.final_feedback⟩
         order init.reviews).2.1, init.final_feedback⟩ = none := by
    rw [aggregator_node]
    show (gen (aggregator_prompt sf
      ((run_fanout gen g.personas
        ⟨init.document, init.selected_reviewers, sf, init.reviews, init.final_feedback⟩
        order init.reviews).2.1))).map
        (fun r => (⟨none, none, some r⟩ : NodeResult)) = none
    rw [haf]
    rfl
  rw [execute, if_pos hval, hsup]
  simp only [Option.getD_some, hnf, Bool.false_eq_true, if_false]
  rw [haggnode]

theorem c6_reviewer_phase (ps : PersonaSnapshot) (gen : Gen) (init : ReviewState)
    (order : List String)
    (hval : valid_selection (create_workflow ps) init = true)
    (hperm : order.Perm init.selected_reviewers)
    (hagg : "aggregator" ∉ ps.map Prod.fst)
    (hsub : ∀ pid ∈ init.selected_reviewers, pid ∈ personaIds (create_workflow ps))
    (hsupok : (gen (supervisor_prompt init.document)).isSome)
    (hfail : ∃ pid ∈ order,
        gen (reviewer_prompt ((findConfig ps pid).prompt) init.document) = none) :
    (execute gen (create_workflow ps) init order).2 = Except.error ExecError.generationError
    ∧ "aggregator" ∉ (execute gen (create_workflow ps) init order).1.map NodeEvent.node_id
    ∧ (execute gen (create_workflow ps) init order).1.map NodeEvent.node_id
        = "supervisor" :: order.filter (fun pid =>
            (gen (reviewer_prompt ((findConfig ps pid).prompt) init.document)).isSome)
    ∧ ∀ ev ∈ (execute gen (create_workflow ps) init order).1,
        ev.fragment.final_feedback = none := by
  obtain ⟨sf, hsf⟩ := Option.isSome_iff_exists.mp hsupok
  have hfailed : (run_fanout gen (create_workflow ps).personas
      ⟨init.document, init.selected_reviewers, sf, init.reviews, init.final_feedback⟩
      order init.reviews).2.2 = true := by
    rw [run_fanout_failed]
    rw [List.any_eq_true]
    obtain ⟨pid, hpid, hnone⟩ := hfail
    refine ⟨pid, hpid, ?_⟩
    show (reviewer_node (findConfig ps pid) gen
      ⟨init.document, init.selected_reviewers, sf, init.reviews, init.final_feedback⟩).isNone
        = true
    rw [reviewer_node]
    rw [show ReviewState.document
      ⟨init.document, init.selected_reviewers, sf, init.reviews, init.final_feedback⟩
        = init.document from rfl]
    rw [hnone]
    rfl
  rw [execute_of_fanout_failed gen (create_workflow ps) init order sf hval hsf hfailed]
  have hmap : (NodeEvent.mk "supervisor" ⟨some sf, none, none⟩
      :: (run_fanout gen (create_workflow ps).personas
        ⟨init.document, init.selected_reviewers, sf, init.reviews, init.final_feedback⟩
        order init.reviews).1).map NodeEvent.node_id
      = "supervisor" :: order.filter (fun pid =>
          (gen (reviewer_prompt ((findConfig ps pid).prompt) init.document)).isSome) := by
    simp only [List.map_cons]
    congr 1
    rw [run_fanout_map_node_id]
    rw [show (create_workflow ps).personas = ps from rfl]
    apply List.filter_congr
    intro pid _
    simp [reviewer_node]
  refine ⟨rfl, ?_, hmap, ?_⟩
  · rw [hmap]
    intro hmem
    rcases List.mem_cons.mp hmem with h | h
    · exact absurd h (by decide)
    · have hor : "aggregator" ∈ order := List.mem_of_mem_filter h
      exact hagg (hsub _ (hperm.mem_iff.mp hor))
  · intro ev hev
    rcases List.mem_cons.mp hev with h | h
    · subst h
      rfl
    · exact (run_fanout_fragments gen (create_workflow ps).personas
        ⟨init.document, init.selected_reviewers, sf, init.reviews, init.final_feedback⟩
        order init.reviews ev h).2

theorem c6_aggregator_phase (ps : PersonaSnapshot) (gen : Gen) (init : ReviewState)
    (order : List String)
    (hval : valid_selection (create_workflow ps) init = true)
    (hperm : order.Perm init.selected_reviewers)
    (hagg : "aggregator" ∉ ps.map Prod.fst)
    (hsub : ∀ pid ∈ init.selected_reviewers, pid ∈ personaIds (create_workflow ps))
    (hsupok : (gen (supervisor_prompt init.document)).isSome)
    (hrev : ∀ pid ∈ order,
        (gen (reviewer_prompt ((findConfig ps pid).prompt) init.document)).isSome)
    (hafail : gen (aggregator_prompt (post_supervisor_state gen init).supervisor_feedback
        (fan_result gen (create_workflow ps) init order).2.1) = none) :
    (execute gen (create_workflow ps) init order).2 = Except.error ExecError.generationError
    ∧ (execute gen (create_workflow ps) init order).1.map NodeEvent.node_id
        = "supervisor" :: order
    ∧ "aggregator" ∉ (execute gen (create_workflow ps) init order).1.map NodeEvent.node_id
    ∧ ∀ ev ∈ (execute gen (create_workflow ps) init order).1,
        ev.fragment.final_feedback = none := by
  obtain ⟨sf, hsf⟩ := Option.isSome_iff_exists.mp hsupok
  have hpost : post_supervisor_state gen init
      = ⟨init.document, init.selected_reviewers, sf, init.reviews, init.final_feedback⟩ := by
    rw [post_supervisor_state, hsf]
    rfl
  have hnf : (run_fanout gen (create_workflow ps).personas
      ⟨init.document, init.selected_reviewers, sf, init.reviews, init.final_feedback⟩
      order init.reviews).2.2 = false := by
    rw [run_fanout_failed]
    rw [show (create_workflow ps).personas = ps from rfl]
    simp only [List.any_eq_false]
    intro pid hpid
    obtain ⟨r, hr⟩ := Option.isSome_iff_exists.mp (hrev pid hpid)
    simp [reviewer_node, hr]
  have haf2 : gen (aggregator_prompt sf
      ((run_fanout gen (create_workflow ps).personas
        ⟨init.document, init.selected_reviewers, sf, init.reviews, init.final_feedback⟩
        order init.reviews).2.1)) = none := by
    simpa [fan_result, hpost] using hafail
  rw [execute_of_agg_failed gen (create_workflow ps) init order sf hval hsf hnf haf2]
  have hmap2 : (run_fanout gen (create_workflow ps).personas
      ⟨init.document, init.selected_reviewers, sf, init.reviews, init.final_feedback⟩
      order init.reviews).1.map NodeEvent.node_id = order := by
    rw [run_fanout_map_node_id]
    rw [show (create_workflow ps).personas = ps from rfl]
    rw [List.filter_eq_self]
    intro pid hpid
    obtain ⟨r, hr⟩ := Option.isSome_iff_exists.mp (hrev pid hpid)
    simp [reviewer_node, hr]
  have hmap : (NodeEvent.mk "supervisor" ⟨some sf, none, none⟩
      :: (run_fanout gen (create_workflow ps).personas
        ⟨init.document, init.selected_reviewers, sf, init.reviews, init.final_feedback⟩
        order init.reviews).1).map NodeEvent.node_id = "supervisor" :: order := by
    simp only [List.map_cons]
    rw [hmap2]
  refine ⟨rfl, hmap, ?_, ?_⟩
  · rw [hmap]
    intro hmem
    rcases List.mem_cons.mp hmem with h | h
    · exact absurd h (by decide)
    · exact hagg (hsub _ (hperm.mem_iff.mp h))
  · intro ev hev
    rcases List.mem_cons.mp hev with h | h
    · subst h
      rfl
    · exact (run_fanout_fragments gen (create_workflow ps).personas
        ⟨init.document, init.selected_reviewers, sf, init.reviews, init.final_feedback⟩
        order init.reviews ev h).2

/-- C6: a Text Generator failure at any node terminates the whole
execution with GenerationError, events already emitted by completed
nodes are kept, no downstream node runs and nothing further is emitted:
a supervisor failure produces zero events; a reviewer-phase failure
keeps the supervisor event and the events of the reviewers whose
generation succeeded, the aggregator never emits and no event carries a
final feedback fragment; an aggregator failure keeps the supervisor and
all reviewer events, emits no aggregator event and no final feedback
fragment. -/
theorem c6_generation_failure (ps : PersonaSnapshot) (gen : Gen) (init : ReviewState)
    (order : List String)
    (hne : init.selected_reviewers ≠ [])
    (hsub : ∀ pid ∈ init.selected_reviewers, pid ∈ personaIds (create_workflow ps))
    (hperm : order.Perm init.selected_reviewers)
    (hagg : "aggregator" ∉ ps.map Prod.fst) :
    (gen (supervisor_prompt init.document) = none →
      execute gen (create_workflow ps) init order
        = ([], Except.error ExecError.generationError))
    ∧ ((gen (supervisor_prompt init.document)).isSome →
       (∃ pid ∈ order,
          gen (reviewer_prompt ((findConfig ps pid).prompt) init.document) = none) →
       (execute gen (create_workflow ps) init order).2 = Except.error ExecError.generationError
       ∧ "aggregator" ∉ (execute gen (create_workflow ps) init order).1.map NodeEvent.node_id
       ∧ (execute gen (create_workflow ps) init order).1.map NodeEvent.node_id
           = "supervisor" :: order.filter (fun pid =>
               (gen (reviewer_prompt ((findConfig ps pid).prompt) init.document)).isSome)
       ∧ ∀ ev ∈ (execute gen (create_workflow ps) init order).1,
           ev.fragment.final_feedback = none)
    ∧ ((gen (supervisor_prompt init.document)).isSome →
       (∀ pid ∈ order,
          (gen (reviewer_prompt ((findConfig ps pid).prompt) init.document)).isSome) →
       gen (aggregator_prompt (post_supervisor_state gen init).supervisor_feedback
         (fan_result gen (create_workflow ps) init order).2.1) = none →
       (execute gen (create_workflow ps) init order).2 = Except.error ExecError.generationError
       ∧ (execute gen (create_workflow ps) init order).1.map NodeEvent.node_id
           = "supervisor" :: order
       ∧ "aggregator" ∉ (execute gen (create_workflow ps) init order).1.map NodeEvent.node_id
       ∧ ∀ ev ∈ (execute gen (create_workflow ps) init order).1,
           ev.fragment.final_feedback = none) := by
  have hval := valid_selection_true (create_workflow ps) init hne hsub
  exact ⟨fun hsfnone => execute_of_supervisor_failed gen (create_workflow ps) init order
      hval hsfnone,
    fun hsupok hfail => c6_reviewer_phase ps gen init order hval hperm hagg hsub hsupok hfail,
    fun hsupok hrev hafail =>
      c6_aggregator_phase ps gen init order hval hperm hagg hsub hsupok hrev hafail⟩

/-- A stub generator failing exactly on the reviewer prompt of the
persona with instruction PK over document D. -/
def failing_gen : Gen := fun p =>
  if p = reviewer_prompt "PK" "D" then none else some "out"

set_option maxRecDepth 8192 in
/-- Witness for C6 at the sample snapshot, with a generator failing on
the kind reviewer alone so that the reviewer-phase antecedents hold
concretely. -/
theorem c6_generation_failure_witness :
    sample_init.selected_reviewers ≠ []
    ∧ (∀ pid ∈ sample_init.selected_reviewers,
        pid ∈ personaIds (create_workflow sample_personas))
    ∧ sample_order.Perm sample_init.selected_reviewers
    ∧ "aggregator" ∉ sample_personas.map Prod.fst
    ∧ (failing_gen (supervisor_prompt sample_init.document)).isSome
    ∧ (∃ pid ∈ sample_order,
        failing_gen (reviewer_prompt ((findConfig sample_personas pid).prompt)
          sample_init.document) = none)
    ∧ ((failing_gen (supervisor_prompt sample_init.document) = none →
          execute failing_gen (create_workflow sample_personas) sample_init sample_order
            = ([], Except.error ExecError.generationError))
      ∧ ((failing_gen (supervisor_prompt sample_init.document)).isSome →
         (∃ pid ∈ sample_order,
            failing_gen (reviewer_prompt ((findConfig sample_personas pid).prompt)
              sample_init.document) = none) →
         (execute failing_gen (create_workflow sample_personas) sample_init sample_order).2
             = Except.error ExecError.generationError
         ∧ "aggregator" ∉ (execute failing_gen (create_workflow sample_personas) sample_init
             sample_order).1.map NodeEvent.node_id
         ∧ (execute failing_gen (create_workflow sample_personas) sample_init
             sample_order).1.map NodeEvent.node_id
             = "supervisor" :: sample_order.filter (fun pid =>
                 (failing_gen (reviewer_prompt ((findConfig sample_personas pid).prompt)
                   sample_init.document)).isSome)
         ∧ ∀ ev ∈ (execute failing_gen (create_workflow sample_personas) sample_init
             sample_order).1, ev.fragment.final_feedback = none)
      ∧ ((failing_gen (supervisor_prompt sample_init.document)).isSome →
         (∀ pid ∈ sample_order,
            (failing_gen (reviewer_prompt ((findConfig sample_personas pid).prompt)
              sample_init.document)).isSome) →
         failing_gen (aggregator_prompt
             (post_supervisor_state failing_gen sample_init).supervisor_feedback
             (fan_result failing_gen (create_workflow sample_personas) sample_init
               sample_order).2.1) = none →
         (execute failing_gen (create_workflow sample_personas) sample_init sample_order).2
             = Except.error ExecError.generationError
         ∧ (execute failing_gen (create_workflow sample_personas) sample_init
             sample_order).1.map NodeEvent.node_id = "supervisor" :: sample_order
         ∧ "aggregator" ∉ (execute failing_gen (create_workflow sample_personas) sample_init
             sample_order).1.map NodeEvent.node_id
         ∧ ∀ ev ∈ (execute failing_gen (create_workflow sample_personas) sample_init
             sample_order).1, ev.fragment.final_feedback = none)) :=
  ⟨by decide, by decide, by decide, by decide, by decide,
   ⟨"kind", by decide, by decide⟩,
   c6_generation_failure sample_personas failing_gen sample_init sample_order
     (by decide) (by decide) (by decide) (by decide)⟩

/-! Graph-shape lemmas. -/

/-- A topological rank for the three-tier graph: supervisor, persona
nodes, aggregator, terminal. -/
def nodeRank (ids : List String) (n : String) : Nat :=
  if n = "supervisor" then 0
  else if n ∈ ids then 1
  else if n = "aggregator" then 2
  else 3

theorem mem_allEdges_cases (ps : PersonaSnapshot) (e : String × String)
    (he : e ∈ allEdges (create_workflow ps)) :
    (e.1 = "supervisor" ∧ e.2 ∈ ps.map Prod.fst)
    ∨ (e.1 ∈ ps.map Prod.fst ∧ e.2 = "aggregator")
    ∨ (e.1 = "aggregator" ∧ e.2 = terminalNode) := by
  rw [allEdges] at he
  rcases List.mem_append.mp he with h | h
  · obtain ⟨t, ht, heq⟩ := List.mem_map.mp h
    subst heq
    exact Or.inl ⟨rfl, ht⟩
  · rw [show (create_workflow ps).edges
      = ps.map (fun p => (p.1, "aggregator")) ++ [("aggregator", terminalNode)] from rfl] at h
    rcases List.mem_append.mp h with h | h
    · obtain ⟨p, hp, heq⟩ := List.mem_map.mp h
      subst heq
      exact Or.inr (Or.inl ⟨List.mem_map_of_mem _ hp, rfl⟩)
    · simp only [List.mem_singleton] at h
      subst h
      exact Or.inr (Or.inr ⟨rfl, rfl⟩)

theorem edgeRel_rank_lt (ps : PersonaSnapshot)
    (hsup : "supervisor" ∉ ps.map Prod.fst)
    (hagg : "aggregator" ∉ ps.map Prod.fst)
    (hend : terminalNode ∉ ps.map Prod.fst) :
    ∀ a b, edgeRel (create_workflow ps) a b →
      nodeRank (ps.map Prod.fst) a < nodeRank (ps.map Prod.fst) b := by
  intro a b hab
  have hcases := mem_allEdges_cases ps (a, b) hab
  have hranksup : nodeRank (ps.map Prod.fst) "supervisor" = 0 := by
    rw [nodeRank, if_pos rfl]
  have hrankagg : nodeRank (ps.map Prod.fst) "aggregator" = 2 := by
    rw [nodeRank, if_neg (by decide), if_neg hagg, if_pos rfl]
  have hrankend : nodeRank (ps.map Prod.fst) terminalNode = 3 := by
    rw [nodeRank, if_neg (by decide), if_neg hend, if_neg (by decide)]
  have hrankid : ∀ t ∈ ps.map Prod.fst, nodeRank (ps.map Prod.fst) t = 1 := by
    intro t ht
    have hts : ¬ t = "supervisor" := fun h => hsup (h ▸ ht)
    rw [nodeRank, if_neg hts, if_pos ht]
  rcases hcases with ⟨ha, hb⟩ | ⟨ha, hb⟩ | ⟨ha, hb⟩ <;>
    simp only at ha hb
  · rw [ha, hranksup, hrankid b hb]
    exact Nat.zero_lt_one
  · rw [hb, hrankagg, hrankid a ha]
    exact Nat.one_lt_two
  · rw [ha, hb, hrankagg, hrankend]
    exact Nat.lt_succ_self 2

/-- C8: a compiled graph over a non-empty duplicate-free snapshot whose
ids avoid the reserved node names has exactly the two static nodes plus
one node per persona id, the supervisor as entry point with the
conditional fan-out to every persona node, an edge from every persona
node to the aggregator, the single edge into the terminal vertex leaving
the aggregator, no edge into the supervisor, no edge between persona
nodes, and no directed cycle. -/
theorem c8_graph_shape (ps : PersonaSnapshot)
    (hne : ps ≠ [])
    (hnd : (ps.map Prod.fst).Nodup)
    (hsup : "supervisor" ∉ ps.map Prod.fst)
    (hagg : "aggregator" ∉ ps.map Prod.fst)
    (hend : terminalNode ∉ ps.map Prod.fst) :
    (create_workflow ps).nodes = "supervisor" :: "aggregator" :: ps.map Prod.fst
    ∧ (create_workflow ps).nodes.Nodup
    ∧ (create_workflow ps).entry_point = "supervisor"
    ∧ (create_workflow ps).cond_source = "supervisor"
    ∧ (create_workflow ps).cond_targets = ps.map Prod.fst
    ∧ (create_workflow ps).cond_targets ≠ []
    ∧ (create_workflow ps).edges
        = ps.map (fun p => (p.1, "aggregator")) ++ [("aggregator", terminalNode)]
    ∧ (∀ e ∈ allEdges (create_workflow ps), e.2 ≠ "supervisor")
    ∧ (∀ e ∈ allEdges (create_workflow ps), e.2 = terminalNode → e.1 = "aggregator")
    ∧ ("aggregator", terminalNode) ∈ allEdges (create_workflow ps)
    ∧ (∀ e ∈ allEdges (create_workflow ps), e.1 ∈ ps.map Prod.fst → e.2 = "aggregator")
    ∧ (∀ n, ¬ Relation.TransGen (edgeRel (create_workflow ps)) n n) := by
  have hnodes_nd : (create_workflow ps).nodes.Nodup := by
    rw [show (create_workflow ps).nodes = "supervisor" :: "aggregator" :: ps.map Prod.fst
      from rfl]
    rw [List.nodup_cons, List.nodup_cons]
    refine ⟨?_, hagg, hnd⟩
    intro h
    rcases List.mem_cons.mp h with h | h
    · exact absurd h (by decide)
    · exact hsup h
  have hct : (create_workflow ps).cond_targets ≠ [] := by
    rw [show (create_workflow ps).cond_targets = ps.map Prod.fst from rfl]
    intro h
    exact hne (List.map_eq_nil_iff.mp h)
  have hnosup : ∀ e ∈ allEdges (create_workflow ps), e.2 ≠ "supervisor" := by
    intro e he heq
    rcases mem_allEdges_cases ps e he with ⟨_, hb⟩ | ⟨_, hb⟩ | ⟨_, hb⟩
    · exact hsup (heq ▸ hb)
    · exact absurd (heq ▸ hb) (by decide)
    · exact absurd (heq ▸ hb) (by decide)
  have hterm : ∀ e ∈ allEdges (create_workflow ps), e.2 = terminalNode → e.1 = "aggregator" := by
    intro e he heq
    rcases mem_allEdges_cases ps e he with ⟨_, hb⟩ | ⟨_, hb⟩ | ⟨ha, _⟩
    · exact absurd (heq ▸ hb) hend
    · exact absurd (heq ▸ hb) (by decide)
    · exact ha
  have haggmem : ("aggregator", terminalNode) ∈ allEdges (create_workflow ps) := by
    rw [allEdges]
    refine List.mem_append_right _ ?_
    rw [show (create_workflow ps).edges
      = ps.map (fun p => (p.1, "aggregator")) ++ [("aggregator", terminalNode)] from rfl]
    exact List.mem_append_right _ (List.mem_singleton_self _)
  have hnopp : ∀ e ∈ allEdges (create_workflow ps),
      e.1 ∈ ps.map Prod.fst → e.2 = "aggregator" := by
    intro e he hmem
    rcases mem_allEdges_cases ps e he with ⟨ha, _⟩ | ⟨_, hb⟩ | ⟨ha, _⟩
    · exact absurd (ha ▸ hmem) hsup
    · exact hb
    · exact absurd (ha ▸ hmem) hagg
  have hdag : ∀ n, ¬ Relation.TransGen (edgeRel (create_workflow ps)) n n := by
    have hrank : ∀ a b, Relation.TransGen (edgeRel (create_workflow ps)) a b →
        nodeRank (ps.map Prod.fst) a < nodeRank (ps.map Prod.fst) b := by
      intro a b h
      induction h with
      | single h => exact edgeRel_rank_lt ps hsup hagg hend _ _ h
      | tail _ h ih => exact lt_trans ih (edgeRel_rank_lt ps hsup hagg hend _ _ h)
    intro n hn
    exact lt_irrefl _ (hrank n n hn)
  exact ⟨rfl, hnodes_nd, rfl, rfl, rfl, hct, rfl, hnosup, hterm, haggmem, hnopp, hdag⟩

/-- Witness for C8 at the sample snapshot. -/
theorem c8_graph_shape_witness :
    sample_personas ≠ []
    ∧ (sample_personas.map Prod.fst).Nodup
    ∧ "supervisor" ∉ sample_personas.map Prod.fst
    ∧ "aggregator" ∉ sample_personas.map Prod.fst
    ∧ terminalNode ∉ sample_personas.map Prod.fst
    ∧ ((create_workflow sample_personas).nodes
          = "supervisor" :: "aggregator" :: sample_personas.map Prod.fst
      ∧ (create_workflow sample_personas).nodes.Nodup
      ∧ (create_workflow sample_personas).entry_point = "supervisor"
      ∧ (create_workflow sample_personas).cond_source = "supervisor"
      ∧ (create_workflow sample_personas).cond_targets = sample_personas.map Prod.fst
      ∧ (create_workflow sample_personas).cond_targets ≠ []
      ∧ (create_workflow sample_personas).edges
          = sample_personas.map (fun p => (p.1, "aggregator"))
            ++ [("aggregator", terminalNode)]
      ∧ (∀ e ∈ allEdges (create_workflow sample_personas), e.2 ≠ "supervisor")
      ∧ (∀ e ∈ allEdges (create_workflow sample_personas),
          e.2 = terminalNode → e.1 = "aggregator")
      ∧ ("aggregator", terminalNode) ∈ allEdges (create_workflow sample_personas)
      ∧ (∀ e ∈ allEdges (create_workflow sample_personas),
          e.1 ∈ sample_personas.map Prod.fst → e.2 = "aggregator")
      ∧ (∀ n, ¬ Relation.TransGen (edgeRel (create_workflow sample_personas)) n n)) :=
  ⟨by decide, by decide, by decide, by decide, by decide,
   c8_graph_shape sample_personas (by decide) (by decide) (by decide) (by decide) (by decide)⟩

end DocReviewer
